import Mathlib

/-!
# Holobac game engine: a shallow embedding and verification

This file embeds the game-state engine of the Holobac repository
(`game/deck.py`, `game/player.py`, `game/dealer.py`, and the engine part of
`bot.py`) as executable Lean definitions, and proves or refutes the frozen
specification claims about it.

Conventions of the embedding:
* Python's mutable objects become immutable Lean structures with explicit
  state passing; a Python method that mutates `self` becomes a function
  returning the updated structure.
* Integers in the engine are all non-negative (card ranks, wild values,
  scores), so they are modelled as `Nat`.
* `random.shuffle` is modelled by quantifying over an arbitrary permutation
  of the deck (`List.Perm`); functions that build their own shuffled deck
  (`start_game`) are parametrised by the already-shuffled deck instead.
* A Python `raise` becomes `Except String`; the source raises before any
  mutation, so the caller's state is unchanged on error.
-/

/-- The four suits of the Spanish deck (`deck.py`, `create_single_spanish_deck`). -/
inductive Suit where
  | basto
  | copa
  | espada
  | oro
deriving DecidableEq, Repr

/-- A card (`deck.py`, class `Card`): either a ranked card with a suit and a
printed rank, or a joker (in the source a joker has `suit = rank = None` and
`is_joker = True`). -/
inductive Card where
  | ranked (suit : Suit) (rank : Nat)
  | joker
deriving DecidableEq, Repr

/-- `Card.is_joker` flag of the source. -/
def Card.is_joker : Card → Bool
  | .ranked _ _ => false
  | .joker => true

/-- The suit list of `create_single_spanish_deck`. -/
def suits : List Suit := [.basto, .copa, .espada, .oro]

/-- The rank list of `create_single_spanish_deck`: 1..7, 10, 11, 12. -/
def ranks : List Nat := [1, 2, 3, 4, 5, 6, 7, 10, 11, 12]

/-- `create_single_spanish_deck` (`deck.py`): every (suit, rank) combination in
suit-major order, followed by 5 jokers when `include_jokers` is set. -/
def create_single_spanish_deck (includeJokers : Bool) : List Card :=
  (suits.map (fun s => ranks.map (fun r => Card.ranked s r))).flatten
    ++ (if includeJokers then List.replicate 5 Card.joker else [])

/-- `create_combined_deck` (`deck.py`): `num_decks` copies of the single deck
(with jokers), concatenated in order. -/
def create_combined_deck : Nat → List Card
  | 0 => []
  | n + 1 => create_single_spanish_deck true ++ create_combined_deck n

/-- `draw_card` (`deck.py`): pop the front card; on an empty deck return the
`None` sentinel and leave the deck empty — never an error. The Python
function mutates the list; here it returns the drawn card together with the
remaining deck. -/
def draw_card : List Card → Option Card × List Card
  | [] => (none, [])
  | c :: rest => (some c, rest)

/-- A participant (`player.py`, class `Player`): hand of (card, assigned
value) pairs, current round score, bust flag. (`total_score` and `bet` are
never read by the engine and are omitted.) -/
structure Player where
  name : String
  hand : List (Card × Nat)
  round_score : Nat
  is_busted : Bool
deriving DecidableEq, Repr

/-- `Player.__init__`. -/
def mkPlayer (name : String) : Player :=
  { name := name, hand := [], round_score := 0, is_busted := false }

/-- `Player.reset_round`. -/
def reset_round (p : Player) : Player :=
  { p with hand := [], round_score := 0, is_busted := false }

/-- `Player.add_card`: a joker requires an explicit `card_value` (else the
source raises `ValueError` before touching any state); a ranked card uses its
printed rank and ignores any supplied `card_value`. The card is appended with
its value, the round score is increased, and `is_busted` is set (never
cleared) when the new score exceeds 30. -/
def add_card (p : Player) (card : Card) (card_value : Option Nat) :
    Except String Player :=
  match card, card_value with
  | .joker, none => .error "Joker drawn but no value assigned."
  | .joker, some v =>
      .ok { p with
              hand := p.hand ++ [(card, v)],
              round_score := p.round_score + v,
              is_busted := if p.round_score + v > 30 then true else p.is_busted }
  | .ranked _ r, _ =>
      .ok { p with
              hand := p.hand ++ [(card, r)],
              round_score := p.round_score + r,
              is_busted := if p.round_score + r > 30 then true else p.is_busted }

/-- `add_card` as used at call sites that guarantee no error: on the error
case the participant is returned unchanged (in the source the exception
escapes before any mutation, leaving the object as it was). -/
def addCardOrKeep (p : Player) (card : Card) (card_value : Option Nat) : Player :=
  match add_card p card card_value with
  | .ok p2 => p2
  | .error _ => p

/-- Sum of the assigned values stored in a hand. -/
def handSum (p : Player) : Nat :=
  (p.hand.map Prod.snd).sum

/-- The ordered candidate list of `Dealer.assign_joker_value` (`dealer.py`). -/
def possible_values : List Nat := [12, 11, 10, 7, 6, 5, 4, 3, 2, 1]

/-- The `for val in possible_values` loop body of `assign_joker_value`:
return the first value of the list that keeps the score at or below 30,
falling back to 1 when the list is exhausted. -/
def firstFit (score : Nat) : List Nat → Nat
  | [] => 1
  | v :: rest => if score + v ≤ 30 then v else firstFit score rest

/-- `Dealer.assign_joker_value` (`dealer.py`): the first (hence largest, the
list being descending) candidate value `v` with `round_score + v ≤ 30`, and 1
if none fits. -/
def assign_joker_value (round_score : Nat) : Nat :=
  firstFit round_score possible_values

/-- `Dealer.play` (`dealer.py`): while `round_score < 24` and not busted,
draw a card (`draw_card` on `c :: rest` yields `(some c, rest)`, on `[]`
yields `none` and the loop breaks); a joker is added with
`assign_joker_value`, a ranked card with its printed rank. Returns the final
dealer together with the remaining deck. On an empty deck the guard test
and the break both yield `(p, [])`, so the two cases are folded. -/
def dealerPlay : Player → List Card → Player × List Card
  | p, [] => (p, [])
  | p, c :: rest =>
    if p.round_score < 24 ∧ p.is_busted = false then
      match c with
      | .joker =>
          dealerPlay (addCardOrKeep p c (some (assign_joker_value p.round_score))) rest
      | .ranked _ _ => dealerPlay (addCardOrKeep p c none) rest
    else (p, c :: rest)

/-- `Dealer.play`, instrumented: identical control flow to `dealerPlay`, but
additionally records, for every joker drawn inside the loop, the pair
(round score at the moment `assign_joker_value` was invoked, value it
returned). -/
def dealerPlayTrace : Player → List Card → Player × List Card × List (Nat × Nat)
  | p, [] => (p, [], [])
  | p, c :: rest =>
    if p.round_score < 24 ∧ p.is_busted = false then
      match c with
      | .joker =>
          let v := assign_joker_value p.round_score
          let r := dealerPlayTrace (addCardOrKeep p c (some v)) rest
          (r.1, r.2.1, (p.round_score, v) :: r.2.2)
      | .ranked _ _ => dealerPlayTrace (addCardOrKeep p c none) rest
    else (p, c :: rest, [])

/-- Game-engine state (`bot.py`, the `state` dictionary of `start_game`):
deck, the two participants, the 1-based round counter, the two fixed-length
round-score arrays (a `none` slot is not yet settled), and the
`player_done` flag set by the two-joker auto-30 rule. (`bet`, `commentary`
and `username` are presentation data and are omitted.) -/
structure GameState where
  deck : List Card
  player : Player
  dealer : Player
  round : Nat
  player_round_scores : List (Option Nat)
  dealer_round_scores : List (Option Nat)
  player_done : Bool
deriving DecidableEq, Repr

/-- One iteration of the dealing loops of `start_game` / `start_new_round`
(`bot.py`): draw a card; if a card came out, add it — a joker with the fixed
value `jokerValue` (0 for the player, whose real value is to be selected
later; 10 for the dealer), a ranked card with its printed rank. -/
def dealOne (p : Player) (jokerValue : Nat) (deck : List Card) : Player × List Card :=
  match draw_card deck with
  | (none, d) => (p, d)
  | (some c, d) =>
      if c.is_joker then (addCardOrKeep p c (some jokerValue), d)
      else (addCardOrKeep p c none, d)

/-- The two-iteration `for _ in range(2)` dealing loop of `start_game` /
`start_new_round`. -/
def dealTwo (p : Player) (jokerValue : Nat) (deck : List Card) : Player × List Card :=
  let r1 := dealOne p jokerValue deck
  dealOne r1.1 jokerValue r1.2

/-- The guard of the two-joker rule (`bot.py`):
`len(player.hand) == 2 and all(c[0].is_joker for c in player.hand)`. -/
def twoJokerHand (p : Player) : Bool :=
  p.hand.length == 2 && p.hand.all (fun cv => cv.1.is_joker)

/-- `start_game` (`bot.py`), parametrised by the already-shuffled deck: deal
two cards to the player (a joker temporarily valued 0), then two to the
dealer (a joker valued 10), build the fresh state, then apply the two-joker
rule: if the player's first two cards are both jokers, force
`round_score = 30` and mark `player_done`. -/
def start_game (deck : List Card) : GameState :=
  let pr := dealTwo (mkPlayer "Player") 0 deck
  let dr := dealTwo (mkPlayer "Dealer") 10 pr.2
  let st : GameState :=
    { deck := dr.2, player := pr.1, dealer := dr.1, round := 1,
      player_round_scores := [none, none, none],
      dealer_round_scores := [none, none, none],
      player_done := false }
  if twoJokerHand st.player then
    { st with player := { st.player with round_score := 30 }, player_done := true }
  else st

/-- `start_new_round` (`bot.py`): reset both hands, clear `player_done`,
deal two cards to each participant from the current deck (same joker
handling as `start_game`), then apply the two-joker rule. The round counter
is not touched here (it was incremented at settlement). -/
def start_new_round (st : GameState) : GameState :=
  let pr := dealTwo (reset_round st.player) 0 st.deck
  let dr := dealTwo (reset_round st.dealer) 10 pr.2
  let st2 := { st with deck := dr.2, player := pr.1, dealer := dr.1, player_done := false }
  if twoJokerHand st2.player then
    { st2 with player := { st2.player with round_score := 30 }, player_done := true }
  else st2

/-- `JokerSelectView.select_callback` (`bot.py`): replace the assigned value
of the last card of the player's hand (assumed to be the joker just drawn)
with the chosen value. Note that the source updates only the stored hand
tuple; `round_score` and `is_busted` are left untouched. -/
def selectJokerValue (st : GameState) (chosen : Nat) : GameState :=
  match st.player.hand.getLast? with
  | none => st
  | some cv =>
      { st with player :=
          { st.player with hand := st.player.hand.dropLast ++ [(cv.1, chosen)] } }

/-- The possible continuations of the `draw_button` handler (`bot.py`):
after a joker the handler returns early and waits for the value-selection
dropdown; after a bust or an exact 30 it delegates to `auto_stand` (with its
`busted` argument); otherwise the player keeps acting. -/
inductive DrawOutcome where
  | awaitSelect (st : GameState)
  | autoStand (st : GameState) (busted : Bool)
  | keepPlaying (st : GameState)
deriving DecidableEq, Repr

/-- State carried by a `DrawOutcome`. -/
def DrawOutcome.state : DrawOutcome → GameState
  | .awaitSelect st => st
  | .autoStand st _ => st
  | .keepPlaying st => st

/-- The post-draw checks of `draw_button` (`bot.py`): `round_score > 30`
sets `is_busted` and delegates to `auto_stand(busted=True)`;
`round_score == 30` delegates to `auto_stand(busted=False)`; otherwise the
player remains acting. -/
def drawChecks (st : GameState) : DrawOutcome :=
  if st.player.round_score > 30 then
    .autoStand { st with player := { st.player with is_busted := true } } true
  else if st.player.round_score = 30 then .autoStand st false
  else .keepPlaying st

/-- The player-facing part of the DRAW action (`bot.py`, `draw_button`):
draw a card; a joker is added with temporary value 0 and the handler waits
for the selection dropdown; a ranked card is added with its rank; an empty
deck adds nothing; then the post-draw checks run. Note the handler never
consults `player_done`. -/
def drawPhase (st : GameState) : DrawOutcome :=
  match draw_card st.deck with
  | (none, d) => drawChecks { st with deck := d }
  | (some c, d) =>
      if c.is_joker then
        .awaitSelect { st with deck := d, player := addCardOrKeep st.player c (some 0) }
      else
        drawChecks { st with deck := d, player := addCardOrKeep st.player c none }

/-- One iteration of the inline dealer loop of `stand_button` / `auto_stand`
(`bot.py`): draw a card; if one came out, a joker is added with the fixed
value 10, a ranked card with its rank; if the deck was empty, nothing is
added and — unlike `Dealer.play` — the loop does NOT break. -/
def botDealerStep (p : Player) (deck : List Card) : Player × List Card :=
  match draw_card deck with
  | (none, d) => (p, d)
  | (some c, d) =>
      if c.is_joker then (addCardOrKeep p c (some 10), d)
      else (addCardOrKeep p c none, d)

/-- The inline dealer loop of `stand_button` / `auto_stand` (`bot.py`),
with explicit fuel: `while round_score < 24 and not busted` iterate
`botDealerStep`. Returns `none` when the fuel runs out with the loop guard
still true (the source would still be looping). -/
def botDealerRun : Nat → Player → List Card → Option (Player × List Card)
  | fuel, p, deck =>
    if p.round_score < 24 ∧ p.is_busted = false then
      match fuel with
      | 0 => none
      | n + 1 =>
          let r := botDealerStep p deck
          botDealerRun n r.1 r.2
    else some (p, deck)

/-- The settlement step shared by `stand_button` and `auto_stand`
(`bot.py`): record the two given scores in slot `round - 1` of the
round-score arrays and increment the round counter. -/
def settleScores (st : GameState) (playerScore dealerScore : Nat) : GameState :=
  { st with
      player_round_scores := st.player_round_scores.set (st.round - 1) (some playerScore),
      dealer_round_scores := st.dealer_round_scores.set (st.round - 1) (some dealerScore),
      round := st.round + 1 }

/-- The settlement of `stand_button` (`bot.py`): a busted participant is
recorded as 0, otherwise its `round_score`. -/
def standSettle (st : GameState) : GameState :=
  settleScores st
    (if st.player.is_busted then 0 else st.player.round_score)
    (if st.dealer.is_busted then 0 else st.dealer.round_score)

/-- The total of a round-score array (`bot.py`, `check_game_end`:
`sum(s if s else 0 for s in ...)`): an unset (or zero) slot counts as 0. -/
def totalOf (scores : List (Option Nat)) : Nat :=
  (scores.map (fun s => s.getD 0)).sum

/-- Final outcome of a game. -/
inductive Outcome where
  | win
  | loss
  | tie
deriving DecidableEq, Repr

/-- `check_game_end` (`bot.py`): once the round counter reaches 4, compare
the two totals — player greater: WIN, smaller: LOSS, equal: TIE. Before
round 4 there is no outcome (the next round starts instead). -/
def gameOutcome (st : GameState) : Option Outcome :=
  if st.round = 4 then
    let tp := totalOf st.player_round_scores
    let td := totalOf st.dealer_round_scores
    some (if tp > td then .win else if tp < td then .loss else .tie)
  else none

/-- `n` successive `draw_card` calls, collecting the returned sentinels. -/
def repeatedDraw : Nat → List Card → List (Option Card) × List Card
  | 0, d => ([], d)
  | n + 1, d =>
      let r := draw_card d
      let rr := repeatedDraw n r.2
      (r.1 :: rr.1, rr.2)

/-- C9. Empty-deck draw: drawing from an empty deck returns the `none`
sentinel (never an error — the return type has no error case, as the source
raises nothing), and any number of repeated draws from an empty deck
returns `none` every time while leaving the deck empty. -/
theorem empty_deck_draw_safe :
    draw_card ([] : List Card) = (none, []) ∧
    ∀ n : Nat, repeatedDraw n [] = (List.replicate n none, []) := by
  refine ⟨rfl, ?_⟩
  intro n
  induction n with
  | zero => rfl
  | succ k ih => simp [repeatedDraw, draw_card, ih, List.replicate_succ]

/-- Does an `add_card` call fail? -/
def isErr : Except String Player → Bool
  | .error _ => true
  | .ok _ => false

/-- C7. `add_card` error contract: it fails exactly when the card is a joker
and no value is supplied; a ranked card always uses its printed rank, any
supplied value being ignored; and on the error the participant (hand,
`round_score`, `is_busted`) is unchanged. -/
theorem add_card_contract :
    ∀ (p : Player) (card : Card) (card_value : Option Nat),
      (isErr (add_card p card card_value) = true ↔
        card.is_joker = true ∧ card_value = none) ∧
      (∀ s r, card = Card.ranked s r →
        add_card p card card_value = add_card p card none ∧
        add_card p card card_value =
          .ok { p with hand := p.hand ++ [(card, r)],
                       round_score := p.round_score + r,
                       is_busted := if p.round_score + r > 30 then true else p.is_busted }) ∧
      (card.is_joker = true → card_value = none → addCardOrKeep p card card_value = p) := by
  intro p card v
  refine ⟨?_, ?_, ?_⟩
  · cases card <;> cases v <;> simp [add_card, isErr, Card.is_joker]
  · rintro s r rfl
    cases v <;> simp [add_card]
  · intro hj hv
    subst hv
    cases card with
    | ranked s r => simp [Card.is_joker] at hj
    | joker => simp [addCardOrKeep, add_card]

/-- Witness for C7 at concrete inputs: a supplied value is ignored on a
ranked card, and a valueless joker leaves the participant unchanged. -/
theorem add_card_contract_witness :
    add_card (mkPlayer "Player") (Card.ranked .oro 7) (some 3) =
      add_card (mkPlayer "Player") (Card.ranked .oro 7) none ∧
    addCardOrKeep (mkPlayer "Player") Card.joker none = mkPlayer "Player" :=
  ⟨((add_card_contract (mkPlayer "Player") (Card.ranked .oro 7) (some 3)).2.1
      Suit.oro 7 rfl).1,
   (add_card_contract (mkPlayer "Player") Card.joker none).2.2 rfl rfl⟩

/-- Drain a deck card by card through `draw_card`, with fuel. -/
def drainAllFuel : Nat → List Card → List Card
  | 0, _ => []
  | n + 1, d =>
      match draw_card d with
      | (none, _) => []
      | (some c, d2) => c :: drainAllFuel n d2

/-- Drain a whole deck card by card through `draw_card`. -/
def drainAll (d : List Card) : List Card := drainAllFuel d.length d

lemma drainAllFuel_eq_self : ∀ (n : Nat) (d : List Card), d.length ≤ n → drainAllFuel n d = d := by
  intro n
  induction n with
  | zero =>
      intro d h
      cases d with
      | nil => rfl
      | cons c rest => simp at h
  | succ k ih =>
      intro d h
      cases d with
      | nil => rfl
      | cons c rest =>
          simp only [drainAllFuel, draw_card]
          rw [ih rest (by simpa using h)]

lemma drainAll_eq_self (d : List Card) : drainAll d = d :=
  drainAllFuel_eq_self d.length d le_rfl

set_option maxRecDepth 4000 in
/-- C8. Deck build and shuffle round-trip: the combined deck with three
copies has exactly 135 cards, 15 of them jokers, each of the 40 (suit, rank)
cards appearing exactly 3 times; and whatever permutation `shuffle_deck`
applies, draining the shuffled deck card by card yields exactly the same
multiset of cards as the freshly built deck. -/
theorem deck_build_shuffle_roundtrip :
    (create_combined_deck 3).length = 135 ∧
    (create_combined_deck 3).count Card.joker = 15 ∧
    (∀ (s : Suit) (r : Nat), r ∈ ranks →
      (create_combined_deck 3).count (Card.ranked s r) = 3) ∧
    (∀ d : List Card, d.Perm (create_combined_deck 3) →
      ∀ c : Card, (drainAll d).count c = (create_combined_deck 3).count c) := by
  refine ⟨by decide, by decide, ?_, ?_⟩
  · intro s r hr
    cases s <;> fin_cases hr <;> decide
  · intro d hp c
    rw [drainAll_eq_self]
    exact hp.count_eq c

/-- Witness for C8 at concrete inputs: the card 7-of-oro appears 3 times,
and draining the (trivially permuted) built deck preserves the joker count. -/
theorem deck_build_shuffle_roundtrip_witness :
    (create_combined_deck 3).count (Card.ranked .oro 7) = 3 ∧
    (drainAll (create_combined_deck 3)).count Card.joker =
      (create_combined_deck 3).count Card.joker :=
  ⟨deck_build_shuffle_roundtrip.2.2.1 Suit.oro 7 (by decide),
   deck_build_shuffle_roundtrip.2.2.2 (create_combined_deck 3) (List.Perm.refl _) Card.joker⟩

/-- A dealer standing at round score 23 (cards 11 and 12), as reached by two
`add_card` calls. -/
def dealerAt23 : Player :=
  addCardOrKeep (addCardOrKeep (mkPlayer "Dealer") (Card.ranked .oro 11) none)
    (Card.ranked .copa 12) none

/-- Counterexample to C2 as stated: in the bot's dealer resolution loop
(`stand_button` / `auto_stand`), a joker drawn at round score 23 is assigned
the fixed value 10 — busting the dealer at 33 — although the largest
candidate value fitting under 30 is 7 (`assign_joker_value 23 = 7`). -/
theorem bot_dealer_joker_not_largest_fit :
    dealerAt23.round_score = 23 ∧
    botDealerRun 5 dealerAt23 [Card.joker] =
      some ({ name := "Dealer",
              hand := [(Card.ranked .oro 11, 11), (Card.ranked .copa 12, 12),
                       (Card.joker, 10)],
              round_score := 33, is_busted := true }, []) ∧
    assign_joker_value 23 = 7 ∧ ¬ (23 + 10 ≤ 30) := by decide

lemma firstFit_first_le (score : Nat) :
    ∀ l : List Nat, l.Sorted (· ≥ ·) → ∀ v ∈ l, score + v ≤ 30 →
      firstFit score l ∈ l ∧ score + firstFit score l ≤ 30 ∧ v ≤ firstFit score l := by
  intro l
  induction l with
  | nil => simp
  | cons a rest ih =>
      intro hs v hv hfit
      by_cases ha : score + a ≤ 30
      · refine ⟨by simp [firstFit, ha], by simp [firstFit, ha, ha], ?_⟩
        rcases List.mem_cons.mp hv with rfl | hv2
        · simp [firstFit, ha]
        · have hge := (List.sorted_cons.mp hs).1 v hv2
          simp only [firstFit, if_pos ha]
          omega
      · rcases List.mem_cons.mp hv with rfl | hv2
        · exact absurd hfit ha
        · have h3 := ih (List.sorted_cons.mp hs).2 v hv2 hfit
          have hr : firstFit score (a :: rest) = firstFit score rest := by
            simp [firstFit, ha]
          rw [hr]
          exact ⟨List.mem_cons_of_mem _ h3.1, h3.2.1, h3.2.2⟩

lemma firstFit_all_unfit (score : Nat) :
    ∀ l : List Nat, (∀ v ∈ l, ¬ (score + v ≤ 30)) → firstFit score l = 1 := by
  intro l
  induction l with
  | nil => intro h; rfl
  | cons a rest ih =>
      intro h
      have ha := h a (List.mem_cons_self a rest)
      simp only [firstFit, if_neg ha]
      exact ih fun v hv => h v (List.mem_cons_of_mem _ hv)

/-- C2 (amended). `assign_joker_value` returns the largest candidate of
`possible_values` that keeps the score at or below 30 (1 when none fits, in
particular for any score of 30 or more); at score 20 it returns 10 and at
score 29 it returns 1. The bot's own dealer loop, however, assigns every
drawn joker the fixed value 10. -/
theorem assign_joker_value_largest_fit :
    (∀ s v : Nat, v ∈ possible_values → s + v ≤ 30 →
      assign_joker_value s ∈ possible_values ∧
      s + assign_joker_value s ≤ 30 ∧ v ≤ assign_joker_value s) ∧
    (∀ s : Nat, 30 ≤ s → assign_joker_value s = 1) ∧
    assign_joker_value 20 = 10 ∧ assign_joker_value 29 = 1 ∧
    (∀ (p : Player) (rest : List Card),
      (botDealerStep p (Card.joker :: rest)).1.hand = p.hand ++ [(Card.joker, 10)]) := by
  refine ⟨?_, ?_, by decide, by decide, ?_⟩
  · intro s v hv hfit
    exact firstFit_first_le s possible_values (by decide) v hv hfit
  · intro s hs
    apply firstFit_all_unfit
    intro v hv
    have hv2 : v ∈ [12, 11, 10, 7, 6, 5, 4, 3, 2, 1] := hv
    fin_cases hv2 <;> omega
  · intro p rest
    rfl

/-- Witness for C2's amended theorem at concrete inputs: at score 18 the
value 12 fits and is returned (being the largest), and at score 31 nothing
fits and the fallback 1 is returned. -/
theorem assign_joker_value_largest_fit_witness :
    (assign_joker_value 18 ∈ possible_values ∧
      18 + assign_joker_value 18 ≤ 30 ∧ 12 ≤ assign_joker_value 18) ∧
    assign_joker_value 31 = 1 :=
  ⟨assign_joker_value_largest_fit.1 18 12 (by decide) (by decide),
   assign_joker_value_largest_fit.2.1 31 (by decide)⟩

/-- `dealerPlay` and its instrumented variant compute the same dealer and
remaining deck. -/
lemma dealerPlayTrace_agrees :
    ∀ (deck : List Card) (p : Player),
      (dealerPlayTrace p deck).1 = (dealerPlay p deck).1 ∧
      (dealerPlayTrace p deck).2.1 = (dealerPlay p deck).2 := by
  intro deck
  induction deck with
  | nil => intro p; exact ⟨rfl, rfl⟩
  | cons c rest ih =>
      intro p
      unfold dealerPlay dealerPlayTrace
      by_cases hg : p.round_score < 24 ∧ p.is_busted = false
      · rw [if_pos hg, if_pos hg]
        cases c with
        | joker => exact ih _
        | ranked s r => exact ih _
      · rw [if_neg hg, if_neg hg]; exact ⟨rfl, rfl⟩

/-- `Dealer.play` stops exactly at its loop conditions: on exit the dealer
has at least 24, or is busted, or the deck has been exhausted (in which case
the dealer silently keeps its score). -/
lemma dealerPlay_stop :
    ∀ (deck : List Card) (p : Player),
      24 ≤ (dealerPlay p deck).1.round_score ∨
      (dealerPlay p deck).1.is_busted = true ∨
      (dealerPlay p deck).2 = [] := by
  intro deck
  induction deck with
  | nil => intro p; right; right; rfl
  | cons c rest ih =>
      intro p
      unfold dealerPlay
      by_cases hg : p.round_score < 24 ∧ p.is_busted = false
      · rw [if_pos hg]
        cases c with
        | joker => exact ih _
        | ranked s r => exact ih _
      · rw [if_neg hg]
        rcases Nat.lt_or_ge p.round_score 24 with hlt | hge
        · right; left
          cases hb : p.is_busted with
          | true => rfl
          | false => exact absurd ⟨hlt, hb⟩ hg
        · left; exact hge

/-- A dealer standing at round score 20 (two 10-cards). -/
def dealerAt20 : Player :=
  addCardOrKeep (addCardOrKeep (mkPlayer "Dealer") (Card.ranked .oro 10) none)
    (Card.ranked .copa 10) none

/-- C10. Joker safety of `Dealer.play`: `assign_joker_value` is invoked only
under the loop guard `round_score < 24` (every entry of the instrumented
trace of `Dealer.play` records a pre-call score below 24); at any such score
some candidate fits (so the post-loop fallback `return 1` is unreachable
from `Dealer.play`), the assigned value is at least 7, and the resulting
score stays at or below 30 — a joker drawn by `Dealer.play` never busts the
dealer. -/
theorem dealer_play_joker_safety :
    (∀ s : Nat, s < 24 →
      7 ≤ assign_joker_value s ∧ s + assign_joker_value s ≤ 30 ∧
      ∃ v ∈ possible_values, s + v ≤ 30) ∧
    (∀ (p : Player) (deck : List Card) (e : Nat × Nat),
      e ∈ (dealerPlayTrace p deck).2.2 →
      e.1 < 24 ∧ e.2 = assign_joker_value e.1 ∧ 7 ≤ e.2 ∧ e.1 + e.2 ≤ 30) := by
  constructor
  · intro s hs
    have h7 := firstFit_first_le s possible_values (by decide) 7 (by decide) (by omega)
    exact ⟨h7.2.2, h7.2.1, ⟨7, by decide, by omega⟩⟩
  · intro p deck
    induction deck generalizing p with
    | nil =>
        intro e he
        simp [dealerPlayTrace] at he
    | cons c rest ih =>
        intro e he
        unfold dealerPlayTrace at he
        by_cases hg : p.round_score < 24 ∧ p.is_busted = false
        · rw [if_pos hg] at he
          cases c with
          | joker =>
              simp only [List.mem_cons] at he
              rcases he with rfl | he2
              · have h7 := firstFit_first_le p.round_score possible_values (by decide) 7
                  (by decide) (by omega)
                exact ⟨hg.1, rfl, h7.2.2, h7.2.1⟩
              · exact ih _ _ he2
          | ranked s r =>
              exact ih _ _ he
        · rw [if_neg hg] at he; simp at he

/-- Witness for C10 at concrete inputs: a dealer at 20 drawing a joker gets
value 10 (recorded in the trace), and the guard facts hold at score 20. -/
theorem dealer_play_joker_safety_witness :
    (7 ≤ assign_joker_value 20 ∧ 20 + assign_joker_value 20 ≤ 30 ∧
      ∃ v ∈ possible_values, 20 + v ≤ 30) ∧
    ((20, 10).1 < 24 ∧ (20, 10).2 = assign_joker_value (20, 10).1 ∧
      7 ≤ (20, 10).2 ∧ (20, 10).1 + (20, 10).2 ≤ 30) :=
  ⟨dealer_play_joker_safety.1 20 (by decide),
   dealer_play_joker_safety.2 dealerAt20 [Card.joker] (20, 10) (by decide)⟩

/-- C3 (bot.py defect). The inline dealer loop of `stand_button` /
`auto_stand` does not break when `draw_card` returns the empty-deck
sentinel: entered with an exhausted deck and a dealer below 24 and not
busted, each iteration leaves the state unchanged and the guard true, so no
amount of fuel ever reaches the loop exit — the loop never terminates,
contradicting the claimed silent end (`Dealer.play` in `dealer.py` does
break, see `dealerPlay_stop`). -/
theorem bot_dealer_loop_spins_on_empty_deck :
    ∀ (n : Nat) (p : Player), p.round_score < 24 → p.is_busted = false →
      botDealerRun n p [] = none := by
  intro n
  induction n with
  | zero =>
      intro p h1 h2
      unfold botDealerRun
      rw [if_pos ⟨h1, h2⟩]
  | succ k ih =>
      intro p h1 h2
      unfold botDealerRun
      rw [if_pos ⟨h1, h2⟩]
      exact ih p h1 h2

/-- Witness for C3's divergence theorem at a concrete input: a dealer at 20
with an empty deck is still looping after any concrete amount of fuel. -/
theorem bot_dealer_loop_spins_witness :
    botDealerRun 7 dealerAt20 [] = none :=
  bot_dealer_loop_spins_on_empty_deck 7 dealerAt20 (by decide) (by decide)

/-- The engine operations that touch a hand directly (`add_card` at its
call sites, `reset_round`). -/
inductive HandOp where
  | add (card : Card) (card_value : Option Nat)
  | reset
deriving DecidableEq, Repr

/-- Apply one hand operation (an erroring `add_card` leaves the participant
unchanged, as the source raises before mutating). -/
def applyHandOp (p : Player) : HandOp → Player
  | .add c v => addCardOrKeep p c v
  | .reset => reset_round p

/-- Run a sequence of hand operations from a fresh participant. -/
def runHandOps (ops : List HandOp) : Player :=
  ops.foldl applyHandOp (mkPlayer "Player")

/-- The spec's hand invariant: the round score is the sum of the assigned
values stored in the hand, and the bust flag holds exactly above 30. -/
def HandInv (p : Player) : Prop :=
  p.round_score = handSum p ∧ (p.is_busted = true ↔ p.round_score > 30)

lemma handInv_push (p : Player) (c : Card) (v : Nat) (h : HandInv p) :
    HandInv { p with hand := p.hand ++ [(c, v)],
                     round_score := p.round_score + v,
                     is_busted := if p.round_score + v > 30 then true else p.is_busted } := by
  obtain ⟨h1, h2⟩ := h
  constructor
  · simp [handSum, h1]
  · by_cases hgt : p.round_score + v > 30
    · simp [hgt]
    · simp only [if_neg hgt]
      constructor
      · intro hb
        have := h2.mp hb
        omega
      · intro hc
        exact absurd hc hgt

lemma handInv_apply (p : Player) (op : HandOp) (h : HandInv p) :
    HandInv (applyHandOp p op) := by
  cases op with
  | reset =>
      constructor
      · simp [applyHandOp, reset_round, handSum]
      · simp [applyHandOp, reset_round]
  | add c v =>
      cases c with
      | joker =>
          cases v with
          | none => simpa [applyHandOp, addCardOrKeep, add_card] using h
          | some w => exact handInv_push p Card.joker w h
      | ranked s r => exact handInv_push p (Card.ranked s r) r h

lemma handInv_foldl :
    ∀ (ops : List HandOp) (p : Player), HandInv p → HandInv (ops.foldl applyHandOp p) := by
  intro ops
  induction ops with
  | nil => exact fun p h => h
  | cons op rest ih =>
      intro p h
      exact ih (applyHandOp p op) (handInv_apply p op h)

lemma handInv_runHandOps (ops : List HandOp) : HandInv (runHandOps ops) := by
  apply handInv_foldl
  constructor
  · rfl
  · simp [mkPlayer]

/-- Does a deck start with two jokers? (The player's first two dealt cards
are the deck's first two cards.) -/
def firstTwoJokers : List Card → Bool
  | Card.joker :: Card.joker :: _ => true
  | _ => false

lemma start_game_proj (deck : List Card) :
    (start_game deck).player =
      (if twoJokerHand (dealTwo (mkPlayer "Player") 0 deck).1
       then { (dealTwo (mkPlayer "Player") 0 deck).1 with round_score := 30 }
       else (dealTwo (mkPlayer "Player") 0 deck).1) ∧
    (start_game deck).player_done = twoJokerHand (dealTwo (mkPlayer "Player") 0 deck).1 ∧
    (start_game deck).dealer =
      (dealTwo (mkPlayer "Dealer") 10 (dealTwo (mkPlayer "Player") 0 deck).2).1 := by
  unfold start_game
  cases hb : twoJokerHand (dealTwo (mkPlayer "Player") 0 deck).1 with
  | true => simp [hb]
  | false => simp [hb]

lemma start_new_round_proj (st : GameState) :
    (start_new_round st).player =
      (if twoJokerHand (dealTwo (reset_round st.player) 0 st.deck).1
       then { (dealTwo (reset_round st.player) 0 st.deck).1 with round_score := 30 }
       else (dealTwo (reset_round st.player) 0 st.deck).1) ∧
    (start_new_round st).player_done =
      twoJokerHand (dealTwo (reset_round st.player) 0 st.deck).1 ∧
    (start_new_round st).dealer =
      (dealTwo (reset_round st.dealer) 10 (dealTwo (reset_round st.player) 0 st.deck).2).1 := by
  unfold start_new_round
  cases hb : twoJokerHand (dealTwo (reset_round st.player) 0 st.deck).1 with
  | true => simp [hb]
  | false => simp [hb]

lemma handInv_dealOne (p : Player) (jv : Nat) (d : List Card) (h : HandInv p) :
    HandInv (dealOne p jv d).1 := by
  cases d with
  | nil => exact h
  | cons c rest =>
      cases c with
      | joker => exact handInv_apply p (.add Card.joker (some jv)) h
      | ranked s r => exact handInv_apply p (.add (Card.ranked s r) none) h

lemma handInv_dealTwo (p : Player) (jv : Nat) (d : List Card) (h : HandInv p) :
    HandInv (dealTwo p jv d).1 :=
  handInv_dealOne _ jv _ (handInv_dealOne p jv d h)

lemma dealOne_joker_values (p : Player) (jv : Nat) (d : List Card)
    (h : ∀ cv ∈ p.hand, cv.1.is_joker = true → cv.2 = jv) :
    ∀ cv ∈ (dealOne p jv d).1.hand, cv.1.is_joker = true → cv.2 = jv := by
  cases d with
  | nil => exact h
  | cons c rest =>
      cases c with
      | joker =>
          intro cv hm hj
          simp only [dealOne, draw_card, Card.is_joker, if_pos, addCardOrKeep, add_card] at hm
          rcases List.mem_append.mp hm with hold | hnew
          · exact h cv hold hj
          · rw [List.mem_singleton] at hnew
            rw [hnew]
      | ranked s r =>
          intro cv hm hj
          simp only [dealOne, draw_card, Card.is_joker, addCardOrKeep, add_card,
            Bool.false_eq_true, if_false] at hm
          rcases List.mem_append.mp hm with hold | hnew
          · exact h cv hold hj
          · rw [List.mem_singleton] at hnew
            rw [hnew] at hj
            simp [Card.is_joker] at hj

lemma dealTwo_joker_values (p : Player) (jv : Nat) (d : List Card)
    (h : ∀ cv ∈ p.hand, cv.1.is_joker = true → cv.2 = jv) :
    ∀ cv ∈ (dealTwo p jv d).1.hand, cv.1.is_joker = true → cv.2 = jv :=
  dealOne_joker_values _ jv _ (dealOne_joker_values p jv d h)

lemma twoJokerHand_score (p0 : Player) (hinv : HandInv p0)
    (hjv : ∀ cv ∈ p0.hand, cv.1.is_joker = true → cv.2 = 0)
    (hb : twoJokerHand p0 = true) :
    p0.round_score = 0 ∧ p0.is_busted = false := by
  have hall : ∀ cv ∈ p0.hand, cv.1.is_joker = true := by
    have := (Bool.and_eq_true _ _).mp hb
    exact fun cv hm => List.all_eq_true.mp this.2 cv hm
  have hsum : handSum p0 = 0 := by
    apply List.sum_eq_zero
    intro x hx
    rcases List.mem_map.mp hx with ⟨cv, hm, hxeq⟩
    rw [← hxeq]
    exact hjv cv hm (hall cv hm)
  have hscore : p0.round_score = 0 := hinv.1.trans hsum
  refine ⟨hscore, ?_⟩
  have h2 := hinv.2
  rw [hscore] at h2
  simpa using h2

/-- A deck whose first two cards are jokers. -/
def twoJokerDeck : List Card :=
  [Card.joker, Card.joker, Card.ranked .oro 5, Card.ranked .copa 7]

/-- Counterexample to C1 as stated: after `start_game` on a deck opening
with two jokers, the two-joker auto-30 adjustment leaves the hand storing
two jokers with assigned value 0 but forces `round_score` to 30, so the
round score is NOT the sum of the assigned values stored in the hand. -/
theorem hand_invariant_cex :
    (start_game twoJokerDeck).player.round_score = 30 ∧
    handSum (start_game twoJokerDeck).player = 0 ∧
    ¬ ((start_game twoJokerDeck).player.round_score =
        handSum (start_game twoJokerDeck).player) := by decide

/-- C1 (amended). After any sequence of `add_card` and `reset_round`
operations the hand invariant holds: `round_score` equals the sum of the
stored assigned values, and `is_busted` iff `round_score > 30`. The
two-joker auto-30 adjustment preserves the bust equivalence (the forced 30
is not a bust) but breaks the sum equality (see the counterexample), and
the joker value-selection step rewrites the stored value while leaving
`round_score` and `is_busted` untouched, likewise breaking the sum
equality. -/
theorem hand_invariant_amended :
    (∀ ops : List HandOp, HandInv (runHandOps ops)) ∧
    (∀ deck : List Card,
      ((start_game deck).player.is_busted = true ↔
        (start_game deck).player.round_score > 30)) ∧
    (∀ (st : GameState) (chosen : Nat),
      (selectJokerValue st chosen).player.round_score = st.player.round_score ∧
      (selectJokerValue st chosen).player.is_busted = st.player.is_busted) := by
  refine ⟨handInv_runHandOps, ?_, ?_⟩
  · intro deck
    rw [(start_game_proj deck).1]
    have hinv : HandInv (dealTwo (mkPlayer "Player") 0 deck).1 :=
      handInv_dealTwo _ 0 _ ⟨rfl, by simp [mkPlayer]⟩
    cases hb : twoJokerHand (dealTwo (mkPlayer "Player") 0 deck).1 with
    | false => simpa using hinv.2
    | true =>
        have hjv := dealTwo_joker_values (mkPlayer "Player") 0 deck
          (by intro cv hm; simp [mkPlayer] at hm)
        have h0 := twoJokerHand_score _ hinv hjv hb
        simp [h0.2]
  · intro st chosen
    cases hl : st.player.hand.getLast? with
    | none => simp [selectJokerValue, hl]
    | some cv => simp [selectJokerValue, hl]

lemma twoJokerHand_dealTwo (p : Player) (hh : p.hand = []) (jv : Nat) :
    ∀ deck : List Card, twoJokerHand (dealTwo p jv deck).1 = firstTwoJokers deck := by
  intro deck
  rcases deck with _ | ⟨a, _ | ⟨b, rest⟩⟩
  · simp [dealTwo, dealOne, draw_card, twoJokerHand, firstTwoJokers, hh]
  · cases a <;>
      simp [dealTwo, dealOne, draw_card, addCardOrKeep, add_card, twoJokerHand,
        Card.is_joker, firstTwoJokers, hh]
  · cases a <;> cases b <;>
      simp [dealTwo, dealOne, draw_card, addCardOrKeep, add_card, twoJokerHand,
        Card.is_joker, firstTwoJokers, hh]

/-- C5. Two-joker rule asymmetry: at the start of any round (`start_game`
and `start_new_round`), the auto-conclusion flag is set exactly when the
player's first two dealt cards (the deck's first two cards) are both
jokers, in which case the player's round score is forced to exactly 30;
a joker dealt to the dealer is instead assigned the fixed value 10
individually, and a dealer dealt two jokers ends the deal at 20 — never the
auto-30 shortcut. -/
theorem two_joker_rule_asymmetry :
    (∀ deck : List Card,
      (start_game deck).player_done = firstTwoJokers deck ∧
      (firstTwoJokers deck = true → (start_game deck).player.round_score = 30) ∧
      (∀ cv ∈ (start_game deck).dealer.hand, cv.1.is_joker = true → cv.2 = 10) ∧
      (∀ d2 : List Card,
        deck = Card.joker :: Card.joker :: Card.joker :: Card.joker :: d2 →
        (start_game deck).dealer.round_score = 20 ∧
        (start_game deck).dealer.is_busted = false)) ∧
    (∀ st : GameState,
      (start_new_round st).player_done = firstTwoJokers st.deck ∧
      (firstTwoJokers st.deck = true → (start_new_round st).player.round_score = 30) ∧
      (∀ cv ∈ (start_new_round st).dealer.hand, cv.1.is_joker = true → cv.2 = 10)) := by
  constructor
  · intro deck
    refine ⟨?_, ?_, ?_, ?_⟩
    · rw [(start_game_proj deck).2.1]
      exact twoJokerHand_dealTwo _ rfl 0 deck
    · intro hf
      have ht : twoJokerHand (dealTwo (mkPlayer "Player") 0 deck).1 = true := by
        rw [twoJokerHand_dealTwo _ rfl 0 deck]
        exact hf
      rw [(start_game_proj deck).1, ht]
      simp
    · rw [(start_game_proj deck).2.2]
      exact dealTwo_joker_values _ 10 _ (by intro cv hm; simp [mkPlayer] at hm)
    · rintro d2 rfl
      refine ⟨?_, ?_⟩ <;> rw [(start_game_proj _).2.2] <;> rfl
  · intro st
    refine ⟨?_, ?_, ?_⟩
    · rw [(start_new_round_proj st).2.1]
      exact twoJokerHand_dealTwo _ rfl 0 st.deck
    · intro hf
      have ht : twoJokerHand (dealTwo (reset_round st.player) 0 st.deck).1 = true := by
        rw [twoJokerHand_dealTwo _ rfl 0 st.deck]
        exact hf
      rw [(start_new_round_proj st).1, ht]
      simp
    · rw [(start_new_round_proj st).2.2]
      exact dealTwo_joker_values _ 10 _ (by intro cv hm; simp [reset_round] at hm)

/-- A deck opening with four jokers: the player's two trigger auto-30, the
dealer's two are valued 10 each. -/
def fourJokerDeck : List Card :=
  [Card.joker, Card.joker, Card.joker, Card.joker, Card.ranked .oro 5]

/-- A mid-game state whose deck opens with two jokers for the player and a
joker for the dealer. -/
def roundTwoState : GameState :=
  { deck := [Card.joker, Card.joker, Card.joker, Card.ranked .espada 4],
    player := dealerAt20, dealer := dealerAt23, round := 2,
    player_round_scores := [some 10, none, none],
    dealer_round_scores := [some 24, none, none],
    player_done := false }

/-- Witness for C5 at concrete inputs, discharging each hypothesis: auto-30
fires on a two-joker opening, dealer jokers are valued 10, and a dealer
dealt two jokers sits at 20. -/
theorem two_joker_rule_asymmetry_witness :
    (start_game twoJokerDeck).player.round_score = 30 ∧
    ((Card.joker, (10 : Nat)).2 = 10) ∧
    ((start_game fourJokerDeck).dealer.round_score = 20 ∧
      (start_game fourJokerDeck).dealer.is_busted = false) ∧
    (start_new_round roundTwoState).player.round_score = 30 ∧
    ((Card.joker, (10 : Nat)).2 = 10) :=
  ⟨(two_joker_rule_asymmetry.1 twoJokerDeck).2.1 (by decide),
   (two_joker_rule_asymmetry.1 fourJokerDeck).2.2.1 (Card.joker, 10) (by decide) (by decide),
   (two_joker_rule_asymmetry.1 fourJokerDeck).2.2.2 [Card.ranked .oro 5] rfl,
   (two_joker_rule_asymmetry.2 roundTwoState).2.1 (by decide),
   (two_joker_rule_asymmetry.2 roundTwoState).2.2 (Card.joker, 10) (by decide) (by decide)⟩

/-- A deck giving the player two jokers (auto-30, `player_done` set), the
dealer 12 and 7, and leaving a 5 on top. -/
def doneStateDeck : List Card :=
  [Card.joker, Card.joker, Card.ranked .oro 12, Card.ranked .copa 7,
   Card.ranked .espada 5]

/-- C6 (bot.py defect). `draw_button` never reads `player_done`: in the
auto-concluded two-joker state it is not a no-op — it draws the next card,
grows the hand from 2 to 3 cards, pushes the forced 30 to 35, marks the
player busted, and enters the auto-stand with `busted = True` (so the
auto-30 round would be recorded as 0). -/
theorem draw_ignores_auto_concluded :
    (start_game doneStateDeck).player_done = true ∧
    (start_game doneStateDeck).player.round_score = 30 ∧
    (start_game doneStateDeck).player.hand.length = 2 ∧
    (start_game doneStateDeck).deck.length = 1 ∧
    (drawPhase (start_game doneStateDeck)).state.player.hand.length = 3 ∧
    (drawPhase (start_game doneStateDeck)).state.player.round_score = 35 ∧
    (drawPhase (start_game doneStateDeck)).state.player.is_busted = true ∧
    (drawPhase (start_game doneStateDeck)).state.deck.length = 0 ∧
    drawPhase (start_game doneStateDeck) =
      DrawOutcome.autoStand (drawPhase (start_game doneStateDeck)).state true := by
  decide

/-- C4. Round settlement and final outcome: `stand_button`'s settlement
records, in slot `round - 1`, 0 for a busted participant and the
participant's `round_score` otherwise, and increments the round counter;
once round 3 has settled (counter now 4), the outcome compares the totals
of the three recorded slots (unset slots counting 0): greater is WIN,
smaller is LOSS, equal is TIE. -/
theorem round_settlement_and_outcome :
    ∀ st : GameState, 1 ≤ st.round → st.round ≤ 3 →
      st.player_round_scores.length = 3 → st.dealer_round_scores.length = 3 →
      ((standSettle st).round = st.round + 1 ∧
       (standSettle st).player_round_scores[st.round - 1]? =
         some (some (if st.player.is_busted then 0 else st.player.round_score)) ∧
       (standSettle st).dealer_round_scores[st.round - 1]? =
         some (some (if st.dealer.is_busted then 0 else st.dealer.round_score)) ∧
       (st.round = 3 →
         ∃ o : Outcome, gameOutcome (standSettle st) = some o ∧
           (o = Outcome.win ↔
             totalOf (standSettle st).player_round_scores >
               totalOf (standSettle st).dealer_round_scores) ∧
           (o = Outcome.loss ↔
             totalOf (standSettle st).player_round_scores <
               totalOf (standSettle st).dealer_round_scores) ∧
           (o = Outcome.tie ↔
             totalOf (standSettle st).player_round_scores =
               totalOf (standSettle st).dealer_round_scores))) := by
  intro st h1 h3 hlp hld
  refine ⟨rfl, ?_, ?_, ?_⟩
  · exact List.getElem?_set_eq_of_lt _ (by omega)
  · exact List.getElem?_set_eq_of_lt _ (by omega)
  · intro hr3
    have hround : (standSettle st).round = 4 := by
      simp [standSettle, settleScores, hr3]
    set tp := totalOf (standSettle st).player_round_scores with htp
    set td := totalOf (standSettle st).dealer_round_scores with htd
    rcases lt_trichotomy tp td with hlt | heq | hgt
    · refine ⟨Outcome.loss, ?_, ?_, ?_, ?_⟩
      · simp [gameOutcome, hround, ← htp, ← htd, hlt, Nat.not_lt.mpr (Nat.le_of_lt hlt),
          Nat.lt_asymm hlt]
      · simp
        omega
      · simp
        omega
      · constructor
        · intro h
          exact absurd h (by simp)
        · intro h
          omega
    · refine ⟨Outcome.tie, ?_, ?_, ?_, ?_⟩
      · simp [gameOutcome, hround, ← htp, ← htd, heq]
      · simp
        omega
      · simp
        omega
      · simp [heq]
    · refine ⟨Outcome.win, ?_, ?_, ?_, ?_⟩
      · simp [gameOutcome, hround, ← htp, ← htd, hgt]
      · simp
        omega
      · simp
        omega
      · constructor
        · intro h
          exact absurd h (by simp)
        · intro h
          omega

/-- A round-3 state about to settle: player stands at 28, dealer at 26,
rounds 1 and 2 already recorded. -/
def settleDemo : GameState :=
  { deck := [],
    player := { name := "Player", hand := [], round_score := 28, is_busted := false },
    dealer := { name := "Dealer", hand := [], round_score := 26, is_busted := false },
    round := 3,
    player_round_scores := [some 0, some 0, none],
    dealer_round_scores := [some 26, some 26, none],
    player_done := false }

/-- Witness for C4 at a concrete round-3 state: slot 2 records the stand
score, the counter moves to 4, and the outcome exists with the trichotomy
characterisation. -/
theorem round_settlement_and_outcome_witness :
    (standSettle settleDemo).round = settleDemo.round + 1 ∧
    (standSettle settleDemo).player_round_scores[settleDemo.round - 1]? =
      some (some (if settleDemo.player.is_busted then 0
                  else settleDemo.player.round_score)) ∧
    (∃ o : Outcome, gameOutcome (standSettle settleDemo) = some o ∧
      (o = Outcome.win ↔
        totalOf (standSettle settleDemo).player_round_scores >
          totalOf (standSettle settleDemo).dealer_round_scores) ∧
      (o = Outcome.loss ↔
        totalOf (standSettle settleDemo).player_round_scores <
          totalOf (standSettle settleDemo).dealer_round_scores) ∧
      (o = Outcome.tie ↔
        totalOf (standSettle settleDemo).player_round_scores =
          totalOf (standSettle settleDemo).dealer_round_scores)) := by
  have h := round_settlement_and_outcome settleDemo (by decide) (by decide)
    (by decide) (by decide)
  exact ⟨h.1, h.2.1, h.2.2.2 rfl⟩
